import Mathlib

/-!
Shallow embedding of the meme-plugin core (`src/core/param.py` and
`src/core/meme.py`) of `astrbot_plugin_memelite`.

Python strings are modelled as Lean `String`s, with the Python string
operations the code uses (`strip`, `split`, `split(" ")`, `replace`,
`isdigit`, `startswith`, `in`) re-implemented structurally over `List Char`
so that every definition evaluates by kernel reduction.  Python `bytes` are
modelled as `List Nat`.  A Python exception propagating out of a function is
modelled with `Except PyErr`; network and platform effects are an explicit
environment `Env` of pure functions.
-/

/-- Python `bytes` values. -/
def Bytes := List Nat
deriving DecidableEq, Repr

/-- Python exceptions that the embedded code can raise. -/
inductive PyErr where
  /-- `AttributeError`: in `param.py` the module does `from random import
  random`, binding the name `random` to a function, so the expression
  `random.randint(...)` in `get_avatar` raises `AttributeError`. -/
  | attributeError
  /-- `IndexError`: `text.split()[0]` on a text with no tokens. -/
  | indexError
  /-- `binascii.Error`: `base64.b64decode` on an invalid payload. -/
  | binasciiError
deriving DecidableEq, Repr

/-- Split a character list at every separator character, keeping empty
pieces — the behaviour of Python `str.split(sep)` for a one-character
separator. -/
def splitOnChar (sep : Char) : List Char → List (List Char)
  | [] => [[]]
  | c :: cs =>
    if c = sep then [] :: splitOnChar sep cs
    else
      match splitOnChar sep cs with
      | t :: ts => (c :: t) :: ts
      | [] => [[c]]

/-- Python `text.split(" ")` (single-space separator, empty pieces kept). -/
def pySplitSpace (s : String) : List String :=
  (splitOnChar ' ' s.toList).map List.asString

/-- Python whitespace test for the characters relevant here (ASCII). -/
def pyIsSpace (c : Char) : Bool :=
  c = ' ' || c = '\t' || c = '\n' || c = '\r'

/-- Split a character list at every character satisfying `p`, keeping
empty pieces. -/
def splitOnPred (p : Char → Bool) : List Char → List (List Char)
  | [] => [[]]
  | c :: cs =>
    if p c then [] :: splitOnPred p cs
    else
      match splitOnPred p cs with
      | t :: ts => (c :: t) :: ts
      | [] => [[c]]

/-- Python `text.split()` with no argument: split on whitespace runs and
drop empty tokens. -/
def pySplit (s : String) : List String :=
  ((splitOnPred pyIsSpace s.toList).filter (· ≠ [])).map List.asString

/-- Python `text.strip()`: drop whitespace from both ends. -/
def pyStrip (s : String) : String :=
  (((s.toList.dropWhile pyIsSpace).reverse.dropWhile pyIsSpace).reverse).asString

/-- Python `s.isdigit()`: non-empty and every character a digit. -/
def pyIsdigit (s : String) : Bool :=
  !s.toList.isEmpty && s.toList.all Char.isDigit

/-- Python `s.startswith(pre)`. -/
def pyStartsWith (s pre : String) : Bool :=
  pre.toList.isPrefixOf s.toList

/-- Python `needle in hay` substring test. -/
def isSubstrList (n : List Char) : List Char → Bool
  | [] => n.isEmpty
  | c :: cs => n.isPrefixOf (c :: cs) || isSubstrList n cs

/-- Python `needle in hay` on strings. -/
def isSubstring (needle hay : String) : Bool :=
  isSubstrList needle.toList hay.toList

/-- Python `s.replace(pat, rep)` (all occurrences, left to right), with an
explicit fuel argument so the recursion is structural; called with fuel
`s.length`, enough because the pattern used in the source is non-empty. -/
def replaceAllFuel (pat rep : List Char) : Nat → List Char → List Char
  | 0, l => l
  | _ + 1, [] => []
  | fuel + 1, c :: cs =>
    if pat.isPrefixOf (c :: cs) then
      rep ++ replaceAllFuel pat rep fuel ((c :: cs).drop pat.length)
    else
      c :: replaceAllFuel pat rep fuel cs

/-- Python `s.replace(pat, rep)` on strings. -/
def pyReplace (s pat rep : String) : String :=
  (replaceAllFuel pat.toList rep.toList s.toList.length s.toList).asString

/-- Python `text.split("=", 1)`: the part before the first `=` and the
part after it. -/
def splitOnceEq (s : String) : String × String :=
  ((s.toList.takeWhile (· ≠ '=')).asString,
   (s.toList.drop ((s.toList.takeWhile (· ≠ '=')).length + 1)).asString)

/-- Python truthiness of an optional string: `None` and `""` are falsy. -/
def truthyStr : Option String → Option String
  | some s => if s = "" then none else some s
  | none => none

/-- Python `a or b` for two optional strings followed by a truthiness
test, as in `if src := seg.url or seg.file`. -/
def firstTruthy (u f : Option String) : Option String :=
  match truthyStr u with
  | some s => some s
  | none => truthyStr f

/-- Python-dict insertion order semantics for `options[k] = v`: update the
existing entry in place, else append. -/
def dictSet (d : List (String × Option String)) (k : String) (v : Option String) :
    List (String × Option String) :=
  if d.any (fun p => p.1 = k) then
    d.map (fun p => if p.1 = k then (k, v) else p)
  else
    d ++ [(k, v)]

/-! ## Data model: message segments, events, meme parameter constraints -/

/-- The message-segment variants the collector inspects
(`astrbot.core.message.components`): `Image`, `At`, `Plain`, `Reply`.
`Image` carries its `url` and `file` fields; `At` carries `qq` and `name`
(the fields Python dataclass equality compares); `Reply` carries the
replied message's sub-chain, `sender_nickname` and `sender_id`. -/
inductive Seg where
  | Image (url : Option String) (file : Option String)
  | At (qq : String) (name : String)
  | Plain (text : String)
  | Reply (chain : List Seg) (sender_nickname : Option String) (sender_id : String)

/-- The test `isinstance(seg, Reply)`. -/
def Seg.isReply : Seg → Bool
  | .Reply _ _ _ => true
  | _ => false

/-- The Python test `seg == chain[0]` for an `At` segment `seg` with fields
`qq`, `name`: dataclass equality is field-wise and is `False` against a
segment of another class; `first` is `chain[0]` when the chain is non-empty
(the collector only evaluates `chain[0]` while iterating a non-empty
chain). -/
def segEqFirst (first : Option Seg) (qq name : String) : Bool :=
  match first with
  | some (.At q n) => q = qq && n = name
  | _ => false

/-- The constraint set `params` of a meme
(`min_images`/`max_images`/`min_texts`/`max_texts`/`default_texts`). -/
structure MemeParams where
  min_images : Nat
  max_images : Nat
  min_texts : Nat
  max_texts : Nat
  default_texts : List String

/-- The event fields `collect_params` reads: the message chain,
`get_sender_id()`, `get_self_id()`, `str(get_sender_name())`. -/
structure EventModel where
  chain : List Seg
  send_id : String
  self_id : String
  sender_name : String

/-- The effects of the collector, as pure functions: `fetch url` is
`session.get(url)` + `read()` with any exception already turned into
`none` by the `try`/`except` in `_download_image`; `is_file`/`read_bytes`
are the local-filesystem branch of `_decode_image`; `b64decode` is
`base64.b64decode` (which raises `binascii.Error` on a bad payload);
`get_extra` is the platform profile lookup of `ParamsCollector.get_extra`
(returning `(nickname, sex)` or `None` on a platform without the
lookup). -/
structure Env where
  fetch : String → Option Bytes
  is_file : String → Bool
  read_bytes : String → Bytes
  b64decode : String → Except Unit Bytes
  get_extra : String → Option (String × Option String)

/-! ## `src/core/param.py`: ParamsCollector -/

/-- Embedding of `ParamsCollector._download_image(url, http)`: downgrade `https://` to
`http://` when `http` is set, then fetch; never raises (the whole fetch is
wrapped in `try`/`except` returning `None`). -/
def _download_image (env : Env) (url : String) (http : Bool := true) : Option Bytes :=
  env.fetch (if http then pyReplace url "https://" "http://" else url)

/-- The avatar URL template of `get_avatar`. -/
def avatarUrl (user_id : String) : String :=
  "https://q4.qlogo.cn/headimg_dl?dst_uin=" ++ user_id ++ "&spec=640"

/-- Embedding of `ParamsCollector.get_avatar(user_id)`.  For a non-digit `user_id` the
source executes `random.randint(...)`, but the module header reads
`from random import random`, so `random` is the function `random.random`
and the attribute access raises `AttributeError`. -/
def get_avatar (env : Env) (user_id : String) : Except PyErr (Option Bytes) :=
  if pyIsdigit user_id then .ok (_download_image env (avatarUrl user_id))
  else .error .attributeError

/-- Embedding of `ParamsCollector._decode_image(src)`: local file, then URL (with the
https downgrade defaulted on), then `base64://` payload; anything else
yields `None`.  The base64 branch returns `base64.b64decode(src[9:])`
directly, so an invalid payload raises. -/
def _decode_image (env : Env) (src : String) : Except PyErr (Option Bytes) :=
  if env.is_file src then .ok (some (env.read_bytes src))
  else if pyStartsWith src "http" then .ok (_download_image env src)
  else if pyStartsWith src "base64://" then
    match env.b64decode ((src.toList.drop 9).asString) with
    | .ok b => .ok (some b)
    | .error _ => .error .binasciiError
  else .ok none

/-- The mutable collection state of one `collect_params` call. -/
structure CState where
  images : List (String × Bytes)
  texts : List String
  options : List (String × Option String)

/-- Embedding of `ParamsCollector._append_id_info`: on a successful profile lookup set
`options["name"]`/`options["gender"]`, then fetch the avatar and append it
(labelled with the nickname) when the fetched bytes are truthy. -/
def _append_id_info (env : Env) (target_id : String) (st : CState) :
    Except PyErr CState :=
  match env.get_extra target_id with
  | none => .ok st
  | some (nickname, sex) =>
    let st := { st with
      options := dictSet (dictSet st.options "name" (some nickname)) "gender" sex }
    match get_avatar env target_id with
    | .error e => .error e
    | .ok (some av) =>
      if av ≠ ([] : List Nat) then
        .ok { st with images := st.images ++ [(nickname, av)] }
      else .ok st
    | .ok none => .ok st

/-- The inner loop of the `Plain` branch of `_process_segment`: one token
after the first — `k=v` option, `@digits` inline mention, or plain text. -/
def processToken (env : Env) (st : CState) (tok : String) : Except PyErr CState :=
  if isSubstring "=" tok then
    .ok { st with options := dictSet st.options (splitOnceEq tok).1 (some (splitOnceEq tok).2) }
  else if pyStartsWith tok "@" then
    if pyIsdigit ((tok.toList.drop 1).asString) then
      _append_id_info env ((tok.toList.drop 1).asString) st
    else .ok st
  else if tok ≠ "" then .ok { st with texts := st.texts ++ [tok] }
  else .ok st

/-- Embedding of `collect_params._process_segment(seg, name)`, with `first` standing
for `chain[0]`. -/
def _process_segment (env : Env) (first : Option Seg) (name : String)
    (st : CState) : Seg → Except PyErr CState
  | .Image url file =>
    match firstTruthy url file with
    | some src =>
      match _decode_image env src with
      | .error e => .error e
      | .ok (some img) =>
        if img ≠ ([] : List Nat) then
          .ok { st with images := st.images ++ [(name, img)] }
        else .ok st
      | .ok none => .ok st
    | none => .ok st
  | .At qq n =>
    if segEqFirst first qq n then .ok st
    else _append_id_info env qq st
  | .Plain text =>
    let plains := pySplitSpace (pyStrip text)
    if plains.length > 1 then plains.tail.foldlM (processToken env) st
    else .ok st
  | .Reply _ _ _ => .ok st

/-- The two segment passes of `collect_params`: first every sub-segment of
the first `Reply` segment's chain (labelled with the replied sender's
nickname, falling back to their id), then every segment of the current
chain (labelled with the sender's name). -/
def segPass (env : Env) (ev : EventModel) : Except PyErr CState :=
  let first := ev.chain.head?
  let st0 : CState := ⟨[], [], []⟩
  match ev.chain.find? Seg.isReply with
  | some (.Reply rchain nick sid) =>
    if rchain.isEmpty then
      ev.chain.foldlM (_process_segment env first ev.sender_name) st0
    else
      let rname := (truthyStr nick).getD sid
      match rchain.foldlM (_process_segment env first rname) st0 with
      | .error e => .error e
      | .ok st1 => ev.chain.foldlM (_process_segment env first ev.sender_name) st1
  | _ => ev.chain.foldlM (_process_segment env first ev.sender_name) st0

/-- One avatar-backfill step of `collect_params`: when the image count is
below `min_images`, fetch the avatar of `uid` and, when the result is
truthy, prepend it labelled `uname`. -/
def backfillStep (env : Env) (uid uname : String) (p : MemeParams)
    (images : List (String × Bytes)) : Except PyErr (List (String × Bytes)) :=
  if images.length < p.min_images then
    match get_avatar env uid with
    | .error e => .error e
    | .ok (some a) =>
      if a ≠ ([] : List Nat) then .ok ((uname, a) :: images) else .ok images
    | .ok none => .ok images
  else .ok images

/-- The image backfill of `collect_params`: sender avatar first, then the
bot's own avatar, each prepended. -/
def backfillImages (env : Env) (ev : EventModel) (p : MemeParams)
    (images : List (String × Bytes)) : Except PyErr (List (String × Bytes)) :=
  match backfillStep env ev.send_id ev.sender_name p images with
  | .error e => .error e
  | .ok images => backfillStep env ev.self_id "bot" p images

/-- The text backfill and truncation of `collect_params`: append the
default texts when the count is below `min_texts` and defaults exist, then
truncate to `max_texts`. -/
def textsFinal (p : MemeParams) (texts : List String) : List String :=
  (if texts.length < p.min_texts ∧ p.default_texts ≠ ([] : List String) then
    texts ++ p.default_texts
  else texts).take p.max_texts

/-- Embedding of `ParamsCollector.collect_params(event, params)`. -/
def collect_params (env : Env) (ev : EventModel) (p : MemeParams) :
    Except PyErr (List (String × Bytes) × List String × List (String × Option String)) :=
  match segPass env ev with
  | .error e => .error e
  | .ok st =>
    match backfillImages env ev p st.images with
    | .error e => .error e
    | .ok images => .ok (images.take p.max_images, textsFinal p st.texts, st.options)

/-! ## `src/core/meme.py`: keyword matching -/

/-- Embedding of `MemeManager.match_meme_keyword(text, fuzzy_match)`.  Fuzzy mode takes
the first catalog keyword occurring as a substring of `text`.  Exact mode
compares each keyword with `text.split()[0]`; when the catalog is
non-empty and `text` has no whitespace-delimited token, that index raises
`IndexError`. -/
def match_meme_keyword (meme_keywords : List String) (text : String)
    (fuzzy_match : Bool) : Except PyErr (Option String) :=
  if fuzzy_match then
    .ok (meme_keywords.find? (fun k => isSubstring k text))
  else
    match meme_keywords, pySplit text with
    | [], _ => .ok none
    | _ :: _, [] => .error .indexError
    | k :: ks, t :: _ => .ok ((k :: ks).find? (fun k => k = t))

/-! ## Concrete environments and events used in concrete theorems -/

/-- Stub environment for the end-to-end scenario: every fetch yields the
byte string `[1]`, and the profile lookup succeeds exactly for user
`12345678` with nickname `Nick` and sex `male` (C2's stub). -/
def env2 : Env :=
  { fetch := fun _ => some [1]
    is_file := fun _ => false
    read_bytes := fun _ => []
    b64decode := fun _ => .error ()
    get_extra := fun uid => if uid = "12345678" then some ("Nick", some "male") else none }

/-- Event whose only segment is the plain text `punch @12345678 hard`. -/
def ev2 : EventModel :=
  { chain := [.Plain "punch @12345678 hard"]
    send_id := "42", self_id := "999", sender_name := "Sender" }

/-- Constraints `min_images=1, max_images=1, min_texts=1, max_texts=1`. -/
def p2 : MemeParams := ⟨1, 1, 1, 1, []⟩

/-- Stub environment in which every lookup would visibly succeed: fetches
yield `[7]` and the profile lookup always answers, so a mention that were
resolved would leave a trace in the output. -/
def env5 : Env :=
  { fetch := fun _ => some [7]
    is_file := fun _ => false
    read_bytes := fun _ => []
    b64decode := fun _ => .error ()
    get_extra := fun _ => some ("X", some "m") }

/-- Event with segment chain `[Mention(self), PlainText("caption")]`. -/
def ev5 : EventModel :=
  { chain := [.At "999" "botname", .Plain "caption"]
    send_id := "42", self_id := "999", sender_name := "Sender" }

/-- Constraints with `min_images = 0` (no backfill applicable). -/
def p5 : MemeParams := ⟨0, 2, 0, 2, []⟩

/-- Stub environment whose fetches yield `[9]` and whose profile lookup
always fails. -/
def env8 : Env :=
  { fetch := fun _ => some [9]
    is_file := fun _ => false
    read_bytes := fun _ => []
    b64decode := fun _ => .error ()
    get_extra := fun _ => none }

/-- Event with an empty segment chain and digit sender/self ids. -/
def ev8 : EventModel :=
  { chain := [], send_id := "7", self_id := "8", sender_name := "S" }

/-- Constraints asking for at least one and at most three images. -/
def p8 : MemeParams := ⟨1, 3, 0, 3, []⟩

/-- Constraints with two default texts and `min_texts = 2`. -/
def p9 : MemeParams := ⟨0, 3, 2, 2, ["d1", "d2"]⟩

/-- Stub environment for the mention-skip scenarios: fetches yield `[5]`
and the profile lookup echoes the queried id as the nickname. -/
def envX : Env :=
  { fetch := fun _ => some [5]
    is_file := fun _ => false
    read_bytes := fun _ => []
    b64decode := fun _ => .error ()
    get_extra := fun uid => some (uid, none) }

/-- Event whose chain opens with `At "111"`, contains a reply whose
sub-chain starts with a copy of that same mention followed by a different
mention `At "222"`, and ends with another copy of the first mention. -/
def evX : EventModel :=
  { chain := [.At "111" "x", .Reply [.At "111" "x", .At "222" "y"] none "r", .At "111" "x"]
    send_id := "42", self_id := "111", sender_name := "S" }

/-! ## Helper lemmas -/

/-- The function `List.find?` returns the first element satisfying the predicate: a
successful search splits the list into a prefix of failures, the found
element, and a suffix. -/
theorem find?_eq_some_split {α} {p : α → Bool} :
    ∀ {l : List α} {a : α}, l.find? p = some a →
      p a = true ∧ ∃ l1 l2, l = l1 ++ a :: l2 ∧ ∀ x ∈ l1, p x = false := by
  intro l
  induction l with
  | nil => intro a h; simp [List.find?] at h
  | cons b t ih =>
    intro a h
    by_cases hpb : p b
    · rw [List.find?_cons_of_pos _ hpb] at h
      obtain rfl : b = a := by injection h
      exact ⟨hpb, [], t, rfl, by intro x hx; simp at hx⟩
    · rw [List.find?_cons_of_neg _ hpb] at h
      obtain ⟨hpa, l1, l2, heq, hall⟩ := ih h
      refine ⟨hpa, b :: l1, l2, by rw [heq]; rfl, ?_⟩
      intro x hx
      rcases List.mem_cons.mp hx with rfl | hx'
      · exact (Bool.not_eq_true (p x)) ▸ hpb
      · exact hall x hx'

/-! ## Claim theorems -/

/-- C1: for every message event and every constraint set, a successful
`collect_params` run returns at most `max_images` images and at most
`max_texts` texts, whatever the segments and backfill contributed. -/
theorem collect_params_le_max (env : Env) (ev : EventModel) (p : MemeParams)
    (is : List (String × Bytes)) (ts : List String)
    (os : List (String × Option String))
    (h : collect_params env ev p = .ok (is, ts, os)) :
    is.length ≤ p.max_images ∧ ts.length ≤ p.max_texts := by
  unfold collect_params at h
  cases hsp : segPass env ev with
  | error e => simp only [hsp] at h; exact absurd h (by simp)
  | ok st =>
    simp only [hsp] at h
    cases hbf : backfillImages env ev p st.images with
    | error e => simp only [hbf] at h; exact absurd h (by simp)
    | ok imgs =>
      simp only [hbf, Except.ok.injEq, Prod.mk.injEq] at h
      obtain ⟨h1, h2, -⟩ := h
      subst h1
      subst h2
      exact ⟨List.length_take_le _ _, List.length_take_le _ _⟩

/-- C1 witness: a concrete successful run respects the bounds. -/
theorem collect_params_le_max_witness :
    ([(("S" : String), ([9] : Bytes))].length ≤ p8.max_images) ∧
    (([] : List String).length ≤ p8.max_texts) :=
  collect_params_le_max env8 ev8 p8 _ _ _ rfl

/-- C2: on the message `punch @12345678 hard` with catalog `["punch"]`,
exact matching resolves the keyword `punch`, and collection returns
exactly the mentioned user's avatar as its one image, texts `["hard"]`,
and options with the user's name and gender. -/
theorem end_to_end_punch :
    match_meme_keyword ["punch"] "punch @12345678 hard" false = .ok (some "punch") ∧
    collect_params env2 ev2 p2 =
      .ok ([("Nick", [1])], ["hard"], [("name", some "Nick"), ("gender", some "male")]) :=
  ⟨rfl, rfl⟩

/-- C3: `get_avatar` raises for every non-digit user id under every
environment — `from random import random` binds a function, so the
fallback expression `random.randint(...)` raises `AttributeError`,
contradicting the spec's "any fetch failure yields no bytes". -/
theorem get_avatar_raises_on_nondigit (env : Env) (uid : String)
    (h : pyIsdigit uid = false) :
    get_avatar env uid = .error .attributeError := by
  unfold get_avatar
  rw [h]
  rfl

/-- C3 witness: the concrete non-digit id `wechat_user` makes `get_avatar`
raise. -/
theorem get_avatar_raises_on_nondigit_witness :
    get_avatar env8 "wechat_user" = Except.error PyErr.attributeError :=
  get_avatar_raises_on_nondigit env8 "wechat_user" rfl

/-- C6: in exact mode a returned keyword is exactly the first
whitespace-delimited token of the input. -/
theorem exact_match_is_first_token (ks : List String) (text k : String)
    (h : match_meme_keyword ks text false = .ok (some k)) :
    (pySplit text).head? = some k := by
  unfold match_meme_keyword at h
  simp only [Bool.false_eq_true, if_false] at h
  cases ks with
  | nil => simp at h
  | cons k0 ks' =>
    cases hsplit : pySplit text with
    | nil => rw [hsplit] at h; exact absurd h (by simp)
    | cons t rest =>
      rw [hsplit] at h
      simp only [Except.ok.injEq] at h
      have := find?_eq_some_split h
      have hkt : k = t := by simpa using this.1
      simp [hkt]

/-- C6 witness: matching `punch it` against catalog `["punch"]` returns
the first token. -/
theorem exact_match_is_first_token_witness :
    (pySplit "punch it").head? = some "punch" :=
  exact_match_is_first_token ["punch"] "punch it" "punch" rfl

/-- C7: in fuzzy mode a returned keyword occurs as a substring of the
input and is the first such keyword in catalog order — every
earlier-indexed catalog keyword does not occur in the input, wherever in
the text the matches sit. -/
theorem fuzzy_match_first_catalog (ks : List String) (text k : String)
    (h : match_meme_keyword ks text true = .ok (some k)) :
    isSubstring k text = true ∧
      ∃ l1 l2, ks = l1 ++ k :: l2 ∧ ∀ k' ∈ l1, isSubstring k' text = false := by
  unfold match_meme_keyword at h
  rw [if_pos rfl] at h
  simp only [Except.ok.injEq] at h
  exact find?_eq_some_split h

/-- C7 witness: with catalog `["ab", "b"]` and input `xb ab`, the catalog
keyword `b` occurs earlier in the text, yet `ab` is returned because it
comes first in the catalog. -/
theorem fuzzy_match_first_catalog_witness :
    isSubstring "ab" "xb ab" = true ∧
      ∃ l1 l2, ["ab", "b"] = l1 ++ "ab" :: l2 ∧
        ∀ k' ∈ l1, isSubstring k' "xb ab" = false :=
  fuzzy_match_first_catalog ["ab", "b"] "xb ab" "ab" rfl

/-- C4 counterexample: in exact mode with the non-empty catalog
`["punch"]`, both the empty input and a whitespace-only input make
`match_meme_keyword` raise `IndexError` (`text.split()[0]` on an empty
token list), so the matcher does not "never raise". -/
theorem match_raises_on_blank :
    match_meme_keyword ["punch"] "" false = .error .indexError ∧
    match_meme_keyword ["punch"] " " false = .error .indexError :=
  ⟨rfl, rfl⟩

/-- C4 amended: `match_meme_keyword` returns a catalog keyword or `none`
and never raises, except in exact mode on an input with no
whitespace-delimited token (empty or whitespace-only) while the catalog is
non-empty, where `text.split()[0]` raises `IndexError`. -/
theorem match_total_except_blank_exact (ks : List String) (text : String)
    (fuzzy : Bool) :
    (∃ k, k ∈ ks ∧ match_meme_keyword ks text fuzzy = .ok (some k)) ∨
    match_meme_keyword ks text fuzzy = .ok none ∨
    (fuzzy = false ∧ pySplit text = [] ∧ ks ≠ [] ∧
      match_meme_keyword ks text fuzzy = .error .indexError) := by
  cases fuzzy with
  | true =>
    cases hf : ks.find? (fun k => isSubstring k text) with
    | none =>
      right; left
      unfold match_meme_keyword
      rw [if_pos rfl, hf]
    | some k =>
      left
      refine ⟨k, List.mem_of_find?_eq_some hf, ?_⟩
      unfold match_meme_keyword
      rw [if_pos rfl, hf]
  | false =>
    cases ks with
    | nil =>
      right; left
      unfold match_meme_keyword
      rw [if_neg (by simp)]
    | cons k0 ks' =>
      cases hsplit : pySplit text with
      | nil =>
        right; right
        refine ⟨rfl, rfl, by simp, ?_⟩
        unfold match_meme_keyword
        rw [if_neg (by simp), hsplit]
      | cons t rest =>
        have he : match_meme_keyword (k0 :: ks') text false =
            .ok ((k0 :: ks').find? (fun k => k = t)) := by
          unfold match_meme_keyword
          rw [if_neg (by simp), hsplit]
        cases hf : (k0 :: ks').find? (fun k => k = t) with
        | none => right; left; rw [he, hf]
        | some k =>
          left
          exact ⟨k, List.mem_of_find?_eq_some hf, by rw [he, hf]⟩

/-- C4 witness: the amended statement at a concrete input where a keyword
is found. -/
theorem match_total_except_blank_exact_witness :
    (∃ k, k ∈ ["punch"] ∧
      match_meme_keyword ["punch"] "punch it" false = .ok (some k)) ∨
    match_meme_keyword ["punch"] "punch it" false = .ok none ∨
    (false = false ∧ pySplit "punch it" = [] ∧ ["punch"] ≠ ([] : List String) ∧
      match_meme_keyword ["punch"] "punch it" false = .error .indexError) :=
  match_total_except_blank_exact ["punch"] "punch it" false

/-- C5 counterexample: on the chain `[Mention(self), PlainText "caption"]`
with `min_images = 0`, collection does not return texts `["caption"]` —
the sole token of the plain segment is discarded as the assumed command
keyword. -/
theorem mention_first_scenario_counterexample :
    collect_params env5 ev5 p5 ≠ .ok ([], ["caption"], []) := by
  intro h
  have he : collect_params env5 ev5 p5 = .ok ([], [], []) := rfl
  rw [he] at h
  simp at h

/-- C5 amended: on `[Mention(self), PlainText "caption"]` the mention is
never resolved (no avatar, no options, although the stubbed lookups would
succeed), and the output is images empty, texts empty (the plain segment's
single token is discarded as the assumed command keyword), options
empty. -/
theorem mention_first_scenario_amended :
    collect_params env5 ev5 p5 = .ok ([], [], []) := rfl

/-- One backfill step returns its input images with either nothing or the
fetched avatar (labelled `uname`) prepended, and prepends nothing when the
image count already reaches the minimum. -/
theorem backfillStep_spec (env : Env) (uid uname : String) (p : MemeParams)
    (imgs res : List (String × Bytes))
    (h : backfillStep env uid uname p imgs = .ok res) :
    ∃ fb, res = fb ++ imgs ∧
      (p.min_images ≤ imgs.length → fb = []) ∧
      (fb = [] ∨ ∃ a, get_avatar env uid = .ok (some a) ∧ fb = [(uname, a)]) := by
  unfold backfillStep at h
  by_cases hlt : imgs.length < p.min_images
  · rw [if_pos hlt] at h
    cases hg : get_avatar env uid with
    | error e => simp only [hg] at h; exact absurd h (by simp)
    | ok r =>
      cases r with
      | none =>
        simp only [hg, Except.ok.injEq] at h
        exact ⟨[], h.symm, fun _ => rfl, Or.inl rfl⟩
      | some a =>
        simp only [hg] at h
        by_cases ha : a = ([] : List Nat)
        · rw [if_neg (fun hne => hne ha)] at h
          simp only [Except.ok.injEq] at h
          exact ⟨[], h.symm, fun _ => rfl, Or.inl rfl⟩
        · rw [if_pos ha] at h
          simp only [Except.ok.injEq] at h
          refine ⟨[(uname, a)], h.symm, ?_, Or.inr ⟨a, rfl, rfl⟩⟩
          intro hge
          exact absurd hlt (Nat.not_lt.mpr hge)
  · rw [if_neg hlt] at h
    simp only [Except.ok.injEq] at h
    exact ⟨[], h.symm, fun _ => rfl, Or.inl rfl⟩

/-- C8: every successful collection's image list is the backfill prefix
followed by the segment-derived images, truncated to `max_images`; the
prefix is empty when the segment images already reach `min_images`, and
otherwise consists of at most one sender avatar (labelled with the sender
name) and at most one bot avatar (labelled `bot`), each tied to a
successful `get_avatar` fetch and prepended ahead of all segment-derived
images, so fallback avatars survive truncation in preference to excess
segment images. -/
theorem image_backfill_prepends (env : Env) (ev : EventModel) (p : MemeParams)
    (is : List (String × Bytes)) (ts : List String)
    (os : List (String × Option String)) (st : CState)
    (hsp : segPass env ev = .ok st)
    (h : collect_params env ev p = .ok (is, ts, os)) :
    ∃ fb, is = (fb ++ st.images).take p.max_images ∧
      (p.min_images ≤ st.images.length → fb = []) ∧
      (fb = [] ∨
       (∃ a, get_avatar env ev.send_id = .ok (some a) ∧ fb = [(ev.sender_name, a)]) ∨
       (∃ b, get_avatar env ev.self_id = .ok (some b) ∧ fb = [("bot", b)]) ∨
       (∃ a b, get_avatar env ev.send_id = .ok (some a) ∧
          get_avatar env ev.self_id = .ok (some b) ∧
          fb = [("bot", b), (ev.sender_name, a)])) := by
  unfold collect_params at h
  simp only [hsp] at h
  cases hbf : backfillImages env ev p st.images with
  | error e => simp only [hbf] at h; exact absurd h (by simp)
  | ok imgs =>
    simp only [hbf, Except.ok.injEq, Prod.mk.injEq] at h
    obtain ⟨h1, -, -⟩ := h
    subst h1
    unfold backfillImages at hbf
    cases hs1 : backfillStep env ev.send_id ev.sender_name p st.images with
    | error e => simp only [hs1] at hbf; exact absurd hbf (by simp)
    | ok imgs1 =>
      simp only [hs1] at hbf
      obtain ⟨fb1, he1, hmin1, hsh1⟩ := backfillStep_spec _ _ _ _ _ _ hs1
      obtain ⟨fb2, he2, hmin2, hsh2⟩ := backfillStep_spec _ _ _ _ _ _ hbf
      subst he1
      refine ⟨fb2 ++ fb1, ?_, ?_, ?_⟩
      · rw [he2, List.append_assoc]
      · intro hge
        have hfb1 : fb1 = [] := hmin1 hge
        subst hfb1
        have hfb2 : fb2 = [] := hmin2 (by simpa using hge)
        subst hfb2
        rfl
      · rcases hsh1 with rfl | ⟨a, hga, rfl⟩ <;>
          rcases hsh2 with rfl | ⟨b, hgb, rfl⟩
        · exact Or.inl rfl
        · exact Or.inr (Or.inr (Or.inl ⟨b, hgb, rfl⟩))
        · exact Or.inr (Or.inl ⟨a, hga, rfl⟩)
        · exact Or.inr (Or.inr (Or.inr ⟨a, b, hga, hgb, rfl⟩))

/-- C8 witness: with an empty chain, `min_images = 1` and a succeeding
avatar fetch, the theorem instantiates to the concrete collection run that
prepends the sender's avatar. -/
theorem image_backfill_prepends_witness :
    ∃ fb, [(("S" : String), ([9] : Bytes))] =
        (fb ++ (⟨[], [], []⟩ : CState).images).take p8.max_images ∧
      (p8.min_images ≤ (⟨[], [], []⟩ : CState).images.length → fb = []) ∧
      (fb = [] ∨
       (∃ a, get_avatar env8 ev8.send_id = .ok (some a) ∧ fb = [(ev8.sender_name, a)]) ∨
       (∃ b, get_avatar env8 ev8.self_id = .ok (some b) ∧ fb = [("bot", b)]) ∨
       (∃ a b, get_avatar env8 ev8.send_id = .ok (some a) ∧
          get_avatar env8 ev8.self_id = .ok (some b) ∧
          fb = [("bot", b), (ev8.sender_name, a)])) :=
  image_backfill_prepends env8 ev8 p8 [("S", [9])] [] [] ⟨[], [], []⟩ rfl rfl

/-- C9: the returned texts are exactly the extracted tokens truncated to
`max_texts`, except when the extracted count is below `min_texts` and the
constraint set provides default texts, in which case the defaults are
appended (never prepended) before truncation. -/
theorem text_backfill_appends (env : Env) (ev : EventModel) (p : MemeParams)
    (is : List (String × Bytes)) (ts : List String)
    (os : List (String × Option String)) (st : CState)
    (hsp : segPass env ev = .ok st)
    (h : collect_params env ev p = .ok (is, ts, os)) :
    (st.texts.length < p.min_texts ∧ p.default_texts ≠ ([] : List String) →
      ts = (st.texts ++ p.default_texts).take p.max_texts) ∧
    (¬(st.texts.length < p.min_texts ∧ p.default_texts ≠ ([] : List String)) →
      ts = st.texts.take p.max_texts) := by
  unfold collect_params at h
  simp only [hsp] at h
  cases hbf : backfillImages env ev p st.images with
  | error e => simp only [hbf] at h; exact absurd h (by simp)
  | ok imgs =>
    simp only [hbf, Except.ok.injEq, Prod.mk.injEq] at h
    obtain ⟨-, h2, -⟩ := h
    subst h2
    unfold textsFinal
    constructor
    · intro hc; rw [if_pos hc]
    · intro hc; rw [if_neg hc]

/-- C9 witness: with no extracted texts, `min_texts = 2` and defaults
`["d1", "d2"]`, the defaults are appended and truncated. -/
theorem text_backfill_appends_witness :
    ((⟨[], [], []⟩ : CState).texts.length < p9.min_texts ∧
        p9.default_texts ≠ ([] : List String) →
      ["d1", "d2"] = ((⟨[], [], []⟩ : CState).texts ++ p9.default_texts).take p9.max_texts) ∧
    (¬((⟨[], [], []⟩ : CState).texts.length < p9.min_texts ∧
        p9.default_texts ≠ ([] : List String)) →
      ["d1", "d2"] = (⟨[], [], []⟩ : CState).texts.take p9.max_texts) :=
  text_backfill_appends env8 ev8 p9 [] ["d1", "d2"] [] ⟨[], [], []⟩ rfl rfl

/-- C10: the mention-skip test compares the segment with `chain[0]` by
(dataclass) equality, not by position: processing an `At` segment equal to
the chain head is a no-op wherever the segment occurs, while an `At`
segment differing from the chain head is resolved through
`_append_id_info`; concretely, in a chain opening with `At "111"`, the
copy of that mention leading the replied sub-chain and the duplicate at
the end of the chain are both skipped, while the sub-chain's second
mention `At "222"` — not equal to the chain head — is resolved. -/
theorem mention_skip_by_equality :
    (∀ (env : Env) (first : Option Seg) (name : String) (st : CState) (qq n : String),
      (first = some (.At qq n) →
        _process_segment env first name st (.At qq n) = .ok st) ∧
      (first ≠ some (.At qq n) →
        _process_segment env first name st (.At qq n) = _append_id_info env qq st)) ∧
    segPass envX evX =
      .ok ⟨[("222", [5])], [], [("name", some "222"), ("gender", none)]⟩ := by
  constructor
  · intro env first name st qq n
    constructor
    · intro hf
      subst hf
      simp [_process_segment, segEqFirst]
    · intro hf
      have hfalse : segEqFirst first qq n = false := by
        cases first with
        | none => rfl
        | some s =>
          cases s with
          | At q' n' =>
            by_cases hq : q' = qq
            · by_cases hn : n' = n
              · exact absurd (by rw [hq, hn]) hf
              · simp [segEqFirst, hn]
            · simp [segEqFirst, hq]
          | Image u f => rfl
          | Plain t => rfl
          | Reply c sn si => rfl
      simp [_process_segment, hfalse]
  · rfl

/-- C10 witness: the skip conclusion at the chain head's duplicate and the
resolve conclusion at a different mention, both at concrete inputs. -/
theorem mention_skip_by_equality_witness :
    _process_segment envX (some (.At "111" "x")) "S" ⟨[], [], []⟩ (.At "111" "x") =
      .ok ⟨[], [], []⟩ ∧
    _process_segment envX (some (.At "111" "x")) "S" ⟨[], [], []⟩ (.At "222" "y") =
      _append_id_info envX "222" ⟨[], [], []⟩ :=
  ⟨(mention_skip_by_equality.1 envX _ "S" _ "111" "x").1 rfl,
   (mention_skip_by_equality.1 envX _ "S" _ "222" "y").2 (by
      intro hcon
      have h1 : Seg.At "111" "x" = Seg.At "222" "y" := by injection hcon
      have h2 : ("111" : String) = "222" := by injection h1
      exact absurd h2 (by decide))⟩
